import Mathlib

/-!
Verification of the EndeavourOS target of rate-mirrors
(src/targets/endeavouros.rs): a shallow embedding of the mirror-list
parser, the version prober and the version selector, together with
theorems settling the specification claims about them.

External collaborators (the `url` crate, Rust `str` primitives, the
`Country` and `Protocol` enums and HTTP I/O) are modelled by executable
Lean definitions; HTTP and file I/O are passed in as explicit oracles so
the code under verification stays pure.
-/

deriving instance DecidableEq for Except

namespace RateMirrors

/-! ## Models of Rust string primitives -/

/-- Model of Rust `str::starts_with`: the needle's characters lead the
haystack's characters. -/
def rsStartsWith (s p : String) : Bool :=
  p.toList.isPrefixOf s.toList

/-- Fuelled worker for `strReplace`.  Scans left to right; whenever the
(nonempty) pattern matches at the current position the replacement is
emitted and the scan resumes after the match, exactly as Rust
`str::replace` does.  One unit of fuel is spent per step, so fuel equal to
the input length always suffices. -/
def replaceFuel (pat repl : List Char) : Nat → List Char → List Char
  | _, [] => []
  | 0, l => l
  | fuel + 1, c :: cs =>
    if pat ≠ [] ∧ pat.isPrefixOf (c :: cs) then
      repl ++ replaceFuel pat repl fuel ((c :: cs).drop pat.length)
    else
      c :: replaceFuel pat repl fuel cs

/-- Model of Rust `str::replace` for a nonempty pattern: replace every
non-overlapping occurrence of `pat` in `s` by `repl`, left to right. -/
def strReplace (s pat repl : String) : String :=
  (replaceFuel pat.toList repl.toList s.toList.length s.toList).asString

/-- Model of Rust `str::contains` for substring needles: some suffix of
`s` starts with `pat`. -/
def strContainsSub (s pat : String) : Bool :=
  s.toList.tails.any (fun t => pat.toList.isPrefixOf t)

/-- Split a character list at every newline character; like
`String.splitOn "\n"`, the result always has one more segment than there
are newlines. -/
def splitNL : List Char → List (List Char)
  | [] => [[]]
  | '\n' :: cs => [] :: splitNL cs
  | c :: cs =>
    match splitNL cs with
    | [] => [[c]]
    | l :: ls => (c :: l) :: ls

/-- Drop one trailing carriage return, as Rust `str::lines` does. -/
def stripCR (l : List Char) : List Char :=
  if l.getLast? = some '\r' then l.dropLast else l

/-- Model of Rust `str::lines`: split on newlines, drop a final empty
segment produced by a trailing newline, strip one trailing `'\r'` per
line. -/
def rustLines (s : String) : List String :=
  let parts := splitNL s.toList
  ((if parts.getLast? = some [] then parts.dropLast else parts).map
    (fun l => (stripCR l).asString))

/-- Model of `str::lines().next()`: the first line of a body, absent
exactly when the body is empty. -/
def firstLine (s : String) : Option String :=
  (rustLines s).head?

/-- Model of Rust `str::parse::<usize>()` over unbounded naturals: an
optional leading `'+'` followed by at least one decimal digit.  (The
64-bit overflow failure of the real `usize` parse is not modelled; no
claim depends on it.) -/
def parseUsize (s : String) : Option Nat :=
  let t := if rsStartsWith s "+" then s.toList.drop 1 else s.toList
  if t ≠ [] ∧ t.all Char.isDigit then
    some (t.foldl (fun n c => n * 10 + (c.toNat - 48)) 0)
  else
    none

/-! ## Model of the `url` crate -/

/-- Model of `url::Url`: an absolute URL kept as its serialization, split
into the scheme and everything after the `"://"` separator. -/
structure Url where
  scheme : String
  rest : String
deriving DecidableEq

/-- Characters allowed in a URL scheme. -/
def isSchemeChar (c : Char) : Bool :=
  c.isAlpha || c.isDigit || c = '+' || c = '-' || c = '.'

/-- Split a character list at the first occurrence of `"://"`, returning
the parts before and after it. -/
def splitScheme : List Char → Option (List Char × List Char)
  | [] => none
  | c :: cs =>
    if [':', '/', '/'].isPrefixOf (c :: cs) then
      some ([], (c :: cs).drop 3)
    else
      match splitScheme cs with
      | none => none
      | some (a, b) => some (c :: a, b)

/-- Model of `Url::parse` / `Url::from_str`: accept `scheme://rest` with a
nonempty scheme of scheme characters starting with a letter. -/
def Url.from_str (s : String) : Option Url :=
  match splitScheme s.toList with
  | none => none
  | some (sch, rest) =>
    if sch ≠ [] ∧ sch.all isSchemeChar ∧ (sch.headD 'a').isAlpha then
      some { scheme := sch.asString, rest := rest.asString }
    else
      none

/-- The serialization of a URL, as the `url` crate's `Display` renders
it. -/
def Url.render (u : Url) : String :=
  u.scheme ++ "://" ++ u.rest

/-- Keep the characters up to and including the last `'/'`; a host with no
path keeps everything and gains a trailing slash, matching how the `url`
crate resolves relative references against a hierarchical base. -/
def keepThroughLastSlash (l : List Char) : List Char :=
  let r := (l.reverse.dropWhile (fun c => c ≠ '/')).reverse
  if r = [] then l ++ ['/'] else r

/-- Model of `Url::join` for the plain relative paths this program joins:
replace everything after the base's last slash by the relative path.  For
the hierarchical URLs this model represents, joining never fails, but the
`Option` mirrors the `Result` of the real `url::Url::join`. -/
def Url.join (base : Url) (rel : String) : Option Url :=
  some { scheme := base.scheme
         rest := (keepThroughLastSlash base.rest.toList).asString ++ rel }

/-! ## Data model: countries, protocols, mirrors, configuration -/

/-- Modelled from the spec: `Country` (crate::countries is not part of the
shown source) is "an enumerated tag parsed from a comment header line in
the list document"; the two tags of the spec's worked example stand in for
the full enumeration. -/
inductive Country where
  | france
  | germany
deriving DecidableEq

/-- Modelled from the spec: parsing a country tag, `none` when the tag is
not a known country name. -/
def Country.from_str (s : String) : Option Country :=
  if s = "France" then some Country.france
  else if s = "Germany" then some Country.germany
  else none

/-- Modelled from the spec: the scheme enum of crate::config — "a
predicate over a scheme enum (e.g., http/https/rsync)". -/
inductive Protocol where
  | http
  | https
  | rsync
deriving DecidableEq

/-- Modelled from the spec: `str::parse::<Protocol>` on a URL scheme. -/
def Protocol.from_str (s : String) : Option Protocol :=
  if s = "http" then some Protocol.http
  else if s = "https" then some Protocol.https
  else if s = "rsync" then some Protocol.rsync
  else none

/-- The mirror record produced by the parser (crate::mirror::Mirror). -/
structure Mirror where
  country : Option Country
  url : Url
  url_to_test : Url
deriving DecidableEq

/-- A probe result: the mirror together with the update number its state
endpoint reported, `none` when the probe failed at any stage. -/
structure VersionedMirror where
  mirror : Mirror
  update_number : Option Nat
deriving DecidableEq

/-- The caller-supplied configuration: the protocol allow-list predicate
(crate::config::Config::is_protocol_allowed). -/
structure Config where
  is_protocol_allowed : Protocol → Bool

/-- The per-target settings of the EndeavourOS target
(crate::target_configs::endeavouros::EndeavourOSTarget), restricted to
the fields this module reads. -/
structure EndeavourOSTarget where
  mirror_list_file : String
  fetch_mirrors_timeout : Nat
  version_mirror_timeout : Nat
  version_mirror_concurrency : Nat
  path_to_test : String
deriving DecidableEq

/-- Modelled from the spec: crate::config::AppError, the error type fetch
failures surface as. -/
inductive AppError where
  | requestError (msg : String)
deriving DecidableEq

/-- The outcome of a Rust function that may return `Ok`, return `Err`, or
abort the thread with a panic (`unwrap` / `expect`). -/
inductive RunResult (α : Type) where
  | ok (a : α)
  | err (e : AppError)
  | panic (msg : String)
deriving DecidableEq

/-! ## HTTP oracles -/

/-- One outbound HTTP GET as the prober builds it: the request URL and the
per-request timeout in milliseconds. -/
structure HttpRequest where
  url : Url
  timeout_ms : Nat
deriving DecidableEq

/-- The environment's answer to a probe GET: connection (or timeout)
failure, body-read failure, or a decoded body. -/
inductive HttpResponse where
  | connectFail
  | readFail
  | body (s : String)
deriving DecidableEq

/-- The environment's answer to the mirror-list GET: send failure, decode
failure, or a decoded document. -/
inductive ListFetchOutcome where
  | sendErr
  | decodeErr
  | body (s : String)
deriving DecidableEq

/-- The I/O environment `fetch_mirrors` runs against: the mirror-list
fetch outcome, the local-file read outcome, and the probe oracle. -/
structure Env where
  list_http : ListFetchOutcome
  file_read : Option String
  probe : HttpRequest → HttpResponse

/-! ## The program: formatter, parser, prober, selector (endeavouros.rs) -/

/-- `LogFormatter::format_mirror` for the EndeavourOS target (source line
100): `format!("Server = {}$repo/$arch", &mirror.url)`. -/
def format_mirror (_target : EndeavourOSTarget) (mirror : Mirror) : String :=
  "Server = " ++ Url.render mirror.url ++ "$repo/$arch"

/-- The stripping applied to a candidate mirror line (source line 138):
`line.replace("Server = ", "").replace("$repo/$arch", "")`. -/
def strip_line (line : String) : String :=
  strReplace (strReplace line "Server = " "") "$repo/$arch" ""

/-- The mirror-list parsing loop of `fetch_mirrors` (source lines
127-156), processing the document's lines in order while threading the
current country.  `Except.error` is the panic of the
`.expect("failed to join path_to_test")` call. -/
def parse_lines (config : Config) (target : EndeavourOSTarget)
    (cc : Option Country) : List String → Except String (List Mirror)
  | [] => Except.ok []
  | line :: rest =>
    if rsStartsWith line "## " then
      parse_lines config target (Country.from_str (strReplace line "## " "")) rest
    else if rsStartsWith line "#" then
      parse_lines config target cc rest
    else if strip_line line = "" then
      parse_lines config target cc rest
    else
      match Url.from_str (strip_line line) with
      | none => parse_lines config target cc rest
      | some url =>
        match Protocol.from_str url.scheme with
        | none => parse_lines config target cc rest
        | some protocol =>
          if config.is_protocol_allowed protocol then
            match Url.join url target.path_to_test with
            | none => Except.error "failed to join path_to_test"
            | some url_to_test =>
              Except.map
                (List.cons { country := cc, url := url, url_to_test := url_to_test })
                (parse_lines config target cc rest)
          else
            parse_lines config target cc rest

/-- One probe task (source lines 22-64): GET `mirror.url.join("state")`
with the target's `version_mirror_timeout`, classify the outcome, emit
one progress message and one `VersionedMirror`.  `Except.error` is the
panic of the `.unwrap()` on the join. -/
def version_mirror (target : EndeavourOSTarget) (probe : HttpRequest → HttpResponse)
    (mirror : Mirror) : Except String (String × VersionedMirror) :=
  match Url.join mirror.url "state" with
  | none => Except.error "called unwrap on a failed join"
  | some u =>
    let resp := probe { url := u, timeout_ms := target.version_mirror_timeout }
    let outcome : Option Nat × String :=
      match resp with
      | HttpResponse.connectFail =>
        (none, "FAILED TO CONNECT: " ++ Url.render mirror.url)
      | HttpResponse.readFail =>
        (none, "FAILED TO READ STATE: " ++ Url.render mirror.url)
      | HttpResponse.body output =>
        match firstLine output with
        | none => (none, "EMPTY MIRROR STATE: " ++ Url.render mirror.url)
        | some line =>
          match parseUsize line with
          | some number =>
            (some number,
             "FETCHED MIRROR VERSION " ++ toString number ++ ": " ++ Url.render mirror.url)
          | none =>
            (none, "FAILED TO READ MIRROR UPDATE NUMBER: " ++ Url.render mirror.url)
    Except.ok (outcome.2, { mirror := mirror, update_number := outcome.1 })

/-- The probing round (source lines 66-92): one task per mirror, results
gathered by `join_all` in spawn order; a panicked task yields a
`JoinError` and is silently dropped by the `.filter_map(|r| r.ok())`.
Returns the progress messages and the probe results. -/
def version_mirrors (target : EndeavourOSTarget) (probe : HttpRequest → HttpResponse)
    (mirrors : List Mirror) : List String × List VersionedMirror :=
  let outs := mirrors.map (version_mirror target probe)
  (outs.filterMap (fun r => r.toOption.map Prod.fst),
   outs.filterMap (fun r => r.toOption.map Prod.snd))

/-- The version selector (source lines 165-186): the maximum of the
present update numbers; if none is present the selection is empty,
otherwise a progress event is emitted and exactly the mirrors whose
update number equals the maximum are kept, in probe-result order. -/
def select_max (vms : List VersionedMirror) : List String × List Mirror :=
  match (vms.filterMap VersionedMirror.update_number).max? with
  | some version =>
    (["TAKING MIRRORS WITH LATEST VERSION: " ++ toString version],
     vms.filterMap (fun m =>
       if m.update_number = some version then some m.mirror else none))
  | none => ([], [])

/-- `FetchMirrors::fetch_mirrors` (source lines 104-189): fetch the
mirror-list document (remote GET when `mirror_list_file` parses as a URL,
otherwise a local file read whose failure is the panic of
`.expect("failed to read from mirror-list-file")`), parse it, probe every
surviving mirror, and select the mirrors at the maximum version.  Returns
the progress events alongside the selected mirrors. -/
def fetch_mirrors (config : Config) (target : EndeavourOSTarget) (env : Env) :
    RunResult (List String × List Mirror) :=
  let fetched : RunResult String :=
    match Url.from_str target.mirror_list_file with
    | some _ =>
      match env.list_http with
      | ListFetchOutcome.sendErr => RunResult.err (AppError.requestError "send")
      | ListFetchOutcome.decodeErr => RunResult.err (AppError.requestError "decode")
      | ListFetchOutcome.body s => RunResult.ok s
    | none =>
      match env.file_read with
      | some s => RunResult.ok s
      | none => RunResult.panic "failed to read from mirror-list-file"
  match fetched with
  | RunResult.err e => RunResult.err e
  | RunResult.panic m => RunResult.panic m
  | RunResult.ok output =>
    match parse_lines config target none (rustLines output) with
    | Except.error m => RunResult.panic m
    | Except.ok mirrors =>
      let probed := version_mirrors target env.probe mirrors
      let selected := select_max probed.2
      RunResult.ok (probed.1 ++ selected.1, selected.2)

/-! ## Transition-system model of the bounded-concurrency probe pool

One probe task is spawned per mirror (source lines 77-85).  A task first
awaits `semaphore.acquire()` (line 29) and the permit is dropped only when
the task's body finishes, so the request issued on lines 32-36 is in
flight only while the task holds a permit.  The tokio counting semaphore
admits an `acquire` exactly when fewer than `N` permits are out, `N` being
`target.version_mirror_concurrency` (line 75). -/

/-- The lifecycle phase of one probe task: waiting on the semaphore, probe
request in flight (permit held), or finished (permit released). -/
inductive TaskPhase where
  | waiting
  | inflight
  | done
deriving DecidableEq

/-- How many tasks currently hold a permit, i.e. have their request in
flight. -/
def inflightCount (ts : List TaskPhase) : Nat :=
  ts.countP (fun t => t = TaskPhase.inflight)

/-- One scheduler step of the probe pool under concurrency limit `N`:
a waiting task may acquire a permit only while fewer than `N` are in
flight, and an in-flight task may complete, releasing its permit. -/
inductive ProbeStep (N : Nat) : List TaskPhase → List TaskPhase → Prop where
  | start (pre post : List TaskPhase) :
      inflightCount (pre ++ TaskPhase.waiting :: post) < N →
      ProbeStep N (pre ++ TaskPhase.waiting :: post)
        (pre ++ TaskPhase.inflight :: post)
  | finish (pre post : List TaskPhase) :
      ProbeStep N (pre ++ TaskPhase.inflight :: post)
        (pre ++ TaskPhase.done :: post)

/-- The states the probe pool can reach from an initial task list. -/
inductive ProbeReach (N : Nat) (init : List TaskPhase) : List TaskPhase → Prop where
  | refl : ProbeReach N init init
  | step {s t : List TaskPhase} :
      ProbeReach N init s → ProbeStep N s t → ProbeReach N init t

/-! ## Concrete instances used by witnesses and counterexamples -/

/-- A caller configuration allowing exactly the https protocol. -/
def demoConfig : Config :=
  { is_protocol_allowed := fun p => p = Protocol.https }

/-- A representative EndeavourOS target configuration. -/
def demoTarget : EndeavourOSTarget :=
  { mirror_list_file := "https://raw.example/mirrorlist"
    fetch_mirrors_timeout := 15000
    version_mirror_timeout := 5000
    version_mirror_concurrency := 8
    path_to_test := "endeavouros/state" }

/-- A mirror record over a base URL, with the probe URL the parser would
attach for `demoTarget`. -/
def demoMirror (host : String) : Mirror :=
  { country := none
    url := { scheme := "https", rest := host ++ "/" }
    url_to_test := { scheme := "https", rest := host ++ "/endeavouros/state" } }

/-- A target whose configured probe path differs from the literal
`"state"` the prober actually joins. -/
def c1target : EndeavourOSTarget :=
  { mirror_list_file := "https://x.example/list"
    fetch_mirrors_timeout := 1000
    version_mirror_timeout := 5000
    version_mirror_concurrency := 4
    path_to_test := "foo" }

/-- A mirror whose `url_to_test` is its url joined with `c1target`'s
configured probe path `"foo"`, exactly as the parser builds it. -/
def c1mirror : Mirror :=
  { country := none
    url := { scheme := "https", rest := "a.example/" }
    url_to_test := { scheme := "https", rest := "a.example/foo" } }

/-- The request the claim predicts: GET `url_to_test` with the target's
probe timeout. -/
def c1claimReq : HttpRequest :=
  { url := c1mirror.url_to_test, timeout_ms := c1target.version_mirror_timeout }

/-- A probe oracle that fails every request. -/
def c1probeA : HttpRequest → HttpResponse :=
  fun _ => HttpResponse.connectFail

/-- A probe oracle that answers only the hardcoded `state` URL; it agrees
with `c1probeA` on every request to `url_to_test`. -/
def c1probeB : HttpRequest → HttpResponse :=
  fun r =>
    if r.url = { scheme := "https", rest := "a.example/state" } then
      HttpResponse.body "5"
    else
      HttpResponse.connectFail

/-- A probe oracle differing from `c1probeA` everywhere except on the
hardcoded `state` URL, where both fail to connect. -/
def c1probeC : HttpRequest → HttpResponse :=
  fun r =>
    if r.url = { scheme := "https", rest := "a.example/state" } then
      HttpResponse.connectFail
    else
      HttpResponse.body "9"

/-- The spec's worked selector example: `[(A,5), (B,None), (C,5), (D,3)]`. -/
def c2vms : List VersionedMirror :=
  [ { mirror := demoMirror "a.example", update_number := some 5 },
    { mirror := demoMirror "b.example", update_number := none },
    { mirror := demoMirror "c.example", update_number := some 5 },
    { mirror := demoMirror "d.example", update_number := some 3 } ]

/-- A target whose mirror-list source is a local path, not a URL. -/
def c3target : EndeavourOSTarget :=
  { mirror_list_file := "/etc/pacman.d/endeavouros-mirrorlist"
    fetch_mirrors_timeout := 15000
    version_mirror_timeout := 5000
    version_mirror_concurrency := 8
    path_to_test := "endeavouros/state" }

/-- An environment in which the local mirror-list file is missing. -/
def c3env : Env :=
  { list_http := ListFetchOutcome.body ""
    file_read := none
    probe := fun _ => HttpResponse.connectFail }

/-- An environment in which the remote mirror-list GET fails to send. -/
def c3remoteEnv : Env :=
  { list_http := ListFetchOutcome.sendErr
    file_read := some ""
    probe := fun _ => HttpResponse.connectFail }


/-! ## Lemmas about the Rust string models -/

/-- No suffix of `l` begins with `pat`: `pat` does not occur in `l`. -/
def NoMatch (pat l : List Char) : Prop :=
  ∀ t, t <:+ l → ¬ pat <+: t

theorem strContainsSub_eq_false_iff (s pat : String) :
    strContainsSub s pat = false ↔ NoMatch pat.toList s.toList := by
  simp only [strContainsSub, NoMatch]
  rw [← Bool.not_eq_true, List.any_eq_true]
  push_neg
  constructor
  · intro h t ht hp
    exact (h t ((List.mem_tails t s.toList).mpr ht))
      (List.isPrefixOf_iff_prefix.mpr hp)
  · intro h t ht hp
    exact h t ((List.mem_tails t s.toList).mp ht) (List.isPrefixOf_iff_prefix.mp hp)

theorem NoMatch.of_cons {pat : List Char} {c : Char} {cs : List Char}
    (h : NoMatch pat (c :: cs)) : NoMatch pat cs :=
  fun t ht => h t (ht.trans (List.suffix_cons c cs))

theorem NoMatch.not_head {pat : List Char} {l : List Char}
    (h : NoMatch pat l) : ¬ pat <+: l :=
  h l (List.suffix_refl l)

/-- A prefix of `x ++ y` no longer than `x` is a prefix of `x`. -/
theorem prefix_of_prefix_append_le {p x y : List Char}
    (h : p <+: x ++ y) (hl : p.length ≤ x.length) : p <+: x := by
  have hp := List.prefix_iff_eq_take.mp h
  rw [List.take_append_eq_append_take, Nat.sub_eq_zero_of_le hl, List.take_zero,
    List.append_nil] at hp
  rw [hp]
  exact List.take_prefix _ _

/-- A prefix of `x ++ y` longer than `x` continues into `y`: dropping
`x.length` characters of it leaves a prefix of `y`. -/
theorem drop_prefix_of_prefix_append {p x y : List Char}
    (h : p <+: x ++ y) (hl : x.length < p.length) : p.drop x.length <+: y := by
  have hp := List.prefix_iff_eq_take.mp h
  rw [List.take_append_eq_append_take, List.take_of_length_le (Nat.le_of_lt hl)] at hp
  rw [hp, List.drop_left]
  exact List.take_prefix _ _

/-- Occurrence-freeness is preserved by appending, provided the pattern
occurs in neither part and no tail of the pattern begins the second
part (no occurrence can straddle the boundary). -/
theorem noMatch_append {pat x y : List Char}
    (hx : NoMatch pat x) (hy : NoMatch pat y)
    (hstraddle : ∀ d, 0 < d → d < pat.length → ¬ pat.drop d <+: y) :
    NoMatch pat (x ++ y) := by
  induction x with
  | nil => simpa using hy
  | cons c cs ih =>
    intro t ht hp
    rw [List.cons_append, List.suffix_cons_iff] at ht
    rcases ht with rfl | ht
    · rw [← List.cons_append] at hp
      rcases le_or_lt pat.length (c :: cs).length with hle | hlt
      · exact hx.not_head (prefix_of_prefix_append_le hp hle)
      · have hd := drop_prefix_of_prefix_append hp hlt
        rcases Nat.eq_zero_or_pos (c :: cs).length with h0 | h0
        · simp at h0
        · exact hstraddle (c :: cs).length h0 hlt hd
    · exact ih hx.of_cons t ht hp


/-- A scan over occurrence-free input leaves it unchanged, regardless of
fuel. -/
theorem replaceFuel_of_noMatch {pat repl : List Char} :
    ∀ (l : List Char) (fuel : Nat), NoMatch pat l → replaceFuel pat repl fuel l = l := by
  intro l
  induction l with
  | nil => intro fuel _; cases fuel <;> rfl
  | cons c cs ih =>
    intro fuel h
    cases fuel with
    | zero => rfl
    | succ f =>
      rw [replaceFuel]
      rw [if_neg]
      · rw [ih f h.of_cons]
      · rintro ⟨-, hpre⟩
        exact h.not_head (List.isPrefixOf_iff_prefix.mp hpre)

/-- A scan beginning exactly at an occurrence of the (nonempty) pattern
replaces it and resumes after it. -/
theorem replaceFuel_append_pat {pat repl : List Char} (hpat : pat ≠ [])
    (l : List Char) (fuel : Nat) :
    replaceFuel pat repl (fuel + 1) (pat ++ l) = repl ++ replaceFuel pat repl fuel l := by
  cases pat with
  | nil => exact absurd rfl hpat
  | cons p ps =>
    rw [List.cons_append, replaceFuel, if_pos, ← List.cons_append, List.drop_left]
    refine ⟨by simp, List.isPrefixOf_iff_prefix.mpr ?_⟩
    rw [← List.cons_append]
    exact List.prefix_append (p :: ps) l

/-- A scan over `u ++ pat`, where the pattern occurs nowhere in `u` and
cannot overlap itself, replaces exactly the final occurrence. -/
theorem replaceFuel_append_end {pat repl : List Char} (hpat : pat ≠ [])
    (hover : ∀ d, 0 < d → d < pat.length → ¬ pat.drop d <+: pat) :
    ∀ (u : List Char) (fuel : Nat), NoMatch pat u → u.length < fuel →
      replaceFuel pat repl fuel (u ++ pat) = u ++ repl := by
  intro u
  induction u with
  | nil =>
    intro fuel _ hfuel
    cases fuel with
    | zero => omega
    | succ f =>
      simp only [List.nil_append]
      have h1 := @replaceFuel_append_pat pat repl hpat [] f
      rw [List.append_nil] at h1
      rw [h1]
      have h2 : replaceFuel pat repl f [] = [] := by cases f <;> rfl
      rw [h2, List.append_nil]
  | cons c cs ih =>
    intro fuel h hfuel
    cases fuel with
    | zero => omega
    | succ f =>
      rw [List.cons_append, replaceFuel, if_neg]
      · rw [ih f h.of_cons (by simp only [List.length_cons] at hfuel; omega)]
        simp
      · rintro ⟨-, hpre⟩
        have hp : pat <+: (c :: cs) ++ pat := by
          rw [List.cons_append]
          exact List.isPrefixOf_iff_prefix.mp hpre
        rcases le_or_lt pat.length (c :: cs).length with hle | hlt
        · exact h.not_head (prefix_of_prefix_append_le hp hle)
        · have hd := drop_prefix_of_prefix_append hp hlt
          exact hover (c :: cs).length (by simp) hlt hd


/-- Restatement of `String.data_append` through `toList`. -/
theorem toList_append (s t : String) : (s ++ t).toList = s.toList ++ t.toList :=
  String.data_append s t

/-- A boolean-to-Prop bridge: a false `isPrefixOf` refutes the prefix
relation. -/
theorem not_prefix_of_isPrefixOf_eq_false {l₁ l₂ : List Char}
    (h : l₁.isPrefixOf l₂ = false) : ¬ l₁ <+: l₂ := by
  intro hp
  rw [List.isPrefixOf_iff_prefix.mpr hp] at h
  cases h

/-- Stripping `format_mirror`'s output recovers the URL serialization,
provided the serialization contains neither stripped literal. -/
theorem strip_line_format (u : String)
    (h1 : NoMatch "Server = ".toList u.toList)
    (h2 : NoMatch "$repo/$arch".toList u.toList) :
    strip_line ("Server = " ++ u ++ "$repo/$arch") = u := by
  have hSne : "Server = ".toList ≠ [] := by decide
  have hAne : "$repo/$arch".toList ≠ [] := by decide
  have hSinA : NoMatch "Server = ".toList "$repo/$arch".toList := by
    rw [← strContainsSub_eq_false_iff]
    decide
  have hstraddleB : ∀ d, d < 9 →
      ("Server = ".toList.drop d).isPrefixOf "$repo/$arch".toList = false := by decide
  have hstraddle : ∀ d, 0 < d → d < "Server = ".toList.length →
      ¬ "Server = ".toList.drop d <+: "$repo/$arch".toList := by
    intro d _ hlt
    exact not_prefix_of_isPrefixOf_eq_false (hstraddleB d (by simpa using hlt))
  have hoverB : ∀ d, d < 11 → 0 < d →
      ("$repo/$arch".toList.drop d).isPrefixOf "$repo/$arch".toList = false := by decide
  have hover : ∀ d, 0 < d → d < "$repo/$arch".toList.length →
      ¬ "$repo/$arch".toList.drop d <+: "$repo/$arch".toList := by
    intro d hd hlt
    exact not_prefix_of_isPrefixOf_eq_false (hoverB d (by simpa using hlt) hd)
  have hnm : NoMatch "Server = ".toList (u.toList ++ "$repo/$arch".toList) :=
    noMatch_append h1 hSinA hstraddle
  have hfmt : ("Server = " ++ u ++ "$repo/$arch").toList
      = "Server = ".toList ++ (u.toList ++ "$repo/$arch".toList) := by
    rw [toList_append, toList_append, List.append_assoc]
  have e1 : strReplace ("Server = " ++ u ++ "$repo/$arch") "Server = " ""
      = (u.toList ++ "$repo/$arch".toList).asString := by
    unfold strReplace
    rw [hfmt]
    rw [show ("Server = ".toList ++ (u.toList ++ "$repo/$arch".toList)).length
        = ((u.toList ++ "$repo/$arch".toList).length + 8) + 1 from by
      rw [List.length_append, show ("Server = ".toList).length = 9 from rfl]
      omega]
    rw [replaceFuel_append_pat hSne]
    rw [replaceFuel_of_noMatch _ _ hnm]
    rfl
  have e2 : strReplace ((u.toList ++ "$repo/$arch".toList).asString) "$repo/$arch" "" = u := by
    unfold strReplace
    rw [show ((u.toList ++ "$repo/$arch".toList).asString).toList
        = u.toList ++ "$repo/$arch".toList from rfl]
    rw [replaceFuel_append_end hAne hover u.toList _ h2 (by
      rw [List.length_append, show ("$repo/$arch".toList).length = 11 from rfl]
      omega)]
    rw [show ("" : String).toList = [] from rfl, List.append_nil]
    rfl
  unfold strip_line
  rw [e1, e2]


/-! ## Lemmas about the parser -/

/-- A formatted mirror line is not a country header. -/
theorem format_not_country_header (s : String) :
    rsStartsWith ("Server = " ++ s) "## " = false := by
  unfold rsStartsWith
  rw [toList_append, show "Server = ".toList
      = 'S' :: "erver = ".toList from rfl]
  rfl

/-- A formatted mirror line is not a comment. -/
theorem format_not_comment (s : String) :
    rsStartsWith ("Server = " ++ s) "#" = false := by
  unfold rsStartsWith
  rw [toList_append, show "Server = ".toList
      = 'S' :: "erver = ".toList from rfl]
  rfl

/-- The empty string is not an absolute URL. -/
theorem from_str_empty : Url.from_str "" = none := rfl

/-- Inverting `Except.map` on a successful result. -/
theorem except_map_eq_ok {ε α β : Type} (f : α → β) (e : Except ε α) (b : β) :
    Except.map f e = Except.ok b ↔ ∃ a, e = Except.ok a ∧ b = f a := by
  cases e <;> simp [Except.map]
  exact eq_comm

/-- `Except.map` is fatal exactly when its argument is. -/
theorem except_map_eq_error {ε α β : Type} (f : α → β) (e : Except ε α) (m : ε) :
    Except.map f e = Except.error m ↔ e = Except.error m := by
  cases e <;> simp [Except.map]

/-- The only panic the parsing loop can raise is the probe-path join
`expect`. -/
theorem parse_lines_error_eq (config : Config) (target : EndeavourOSTarget) :
    ∀ (lines : List String) (cc : Option Country) (m : String),
      parse_lines config target cc lines = Except.error m →
      m = "failed to join path_to_test" := by
  intro lines
  induction lines with
  | nil => intro cc m h; cases h
  | cons l rest ih =>
    intro cc m h
    rw [parse_lines] at h
    split at h
    · exact ih _ _ h
    · split at h
      · exact ih _ _ h
      · split at h
        · exact ih _ _ h
        · split at h
          · exact ih _ _ h
          · split at h
            · exact ih _ _ h
            · split at h
              · split at h
                · cases h; rfl
                · rw [except_map_eq_error] at h
                  exact ih _ _ h
              · exact ih _ _ h


/-! ## Lemmas about the prober and selector -/

/-- A probe task never panics in this model (joining the literal `state`
path always succeeds), so it yields exactly one message and one result,
and the result wraps the task's own mirror. -/
theorem version_mirror_ok (target : EndeavourOSTarget)
    (probe : HttpRequest → HttpResponse) (mirror : Mirror) :
    ∃ msg upd, version_mirror target probe mirror
      = Except.ok (msg, { mirror := mirror, update_number := upd }) := by
  rw [version_mirror]
  rw [show Url.join mirror.url "state"
      = some { scheme := mirror.url.scheme
               rest := (keepThroughLastSlash mirror.url.rest.toList).asString ++ "state" }
    from rfl]
  exact ⟨_, _, rfl⟩

/-- Selected mirrors, as the code computes them, are the mirrors of the
probe results whose update number equals the given version. -/
theorem filterMap_select_eq (v : Nat) (l : List VersionedMirror) :
    l.filterMap (fun m => if m.update_number = some v then some m.mirror else none)
      = (l.filter (fun m => m.update_number == some v)).map VersionedMirror.mirror := by
  induction l with
  | nil => rfl
  | cons a t ih =>
    by_cases h : a.update_number = some v <;>
      simp [List.filterMap_cons, List.filter_cons, h, ih]


/-! ## Claim theorems -/

/-- C1 (amended): the probe's single HTTP GET goes to the mirror's base
url joined with the literal relative path `state` — not to `url_to_test`
— with the per-probe timeout taken from the target settings: the task's
outcome depends on the probe oracle only through its answer at that one
request. -/
theorem probe_requests_state_path
    (target : EndeavourOSTarget) (p₁ p₂ : HttpRequest → HttpResponse)
    (mirror : Mirror) (u : Url)
    (hj : Url.join mirror.url "state" = some u)
    (hagree : p₁ { url := u, timeout_ms := target.version_mirror_timeout }
      = p₂ { url := u, timeout_ms := target.version_mirror_timeout }) :
    version_mirror target p₁ mirror = version_mirror target p₂ mirror := by
  rw [version_mirror, version_mirror, hj]
  simp only [hagree]

/-- Witness for C1's theorem: two oracles that differ away from the
`state` request but agree on it produce identical probe outcomes. -/
theorem probe_requests_state_path_witness :
    version_mirror c1target c1probeA c1mirror = version_mirror c1target c1probeC c1mirror :=
  probe_requests_state_path c1target c1probeA c1probeC c1mirror
    { scheme := "https", rest := "a.example/state" } (by decide) (by decide)

/-- Counterexample to C1 as stated: the two oracles agree on the request
to `url_to_test` (with the target's probe timeout), yet the probe
outcomes differ — so the probe's GET is not issued to `url_to_test`. -/
theorem probe_requests_url_to_test_counterexample :
    c1probeA c1claimReq = c1probeB c1claimReq ∧
    (version_mirror c1target c1probeA c1mirror).toOption
      ≠ (version_mirror c1target c1probeB c1mirror).toOption := by
  exact ⟨by decide, by decide⟩

/-- C6: the prober yields exactly one progress event and exactly one
probe result per input mirror, whatever the outcome of each probe. -/
theorem prober_one_event_one_result_per_mirror
    (target : EndeavourOSTarget) (probe : HttpRequest → HttpResponse)
    (mirrors : List Mirror) :
    (version_mirrors target probe mirrors).1.length = mirrors.length ∧
    (version_mirrors target probe mirrors).2.length = mirrors.length := by
  induction mirrors with
  | nil => exact ⟨rfl, rfl⟩
  | cons m ms ih =>
    obtain ⟨msg, upd, h⟩ := version_mirror_ok target probe m
    simp only [version_mirrors, List.map_cons, List.filterMap_cons, h,
      Except.toOption, Option.map, List.length_cons] at ih ⊢
    exact ⟨by rw [ih.1], by rw [ih.2]⟩

/-- C9: the probe-result sequence is in input order, one result per input
mirror — the i-th result's mirror is the i-th input mirror. -/
theorem probe_results_in_input_order
    (target : EndeavourOSTarget) (probe : HttpRequest → HttpResponse)
    (mirrors : List Mirror) :
    (version_mirrors target probe mirrors).2.map VersionedMirror.mirror = mirrors := by
  induction mirrors with
  | nil => rfl
  | cons m ms ih =>
    obtain ⟨msg, upd, h⟩ := version_mirror_ok target probe m
    simp only [version_mirrors, List.map_cons, List.filterMap_cons, h,
      Except.toOption, Option.map] at ih ⊢
    rw [ih]


/-- C2: the selector's output is empty when no probe result carries a
version, and otherwise is exactly — and therefore non-emptily — the
mirrors whose update number equals the maximum of the present ones (a
result with an absent update number is never selected). -/
theorem selector_takes_exactly_max_version (vms : List VersionedMirror) :
    (vms.filterMap VersionedMirror.update_number = [] → (select_max vms).2 = []) ∧
    (∀ v, (vms.filterMap VersionedMirror.update_number).max? = some v →
      (select_max vms).2
        = (vms.filter (fun m => m.update_number == some v)).map VersionedMirror.mirror ∧
      (select_max vms).2 ≠ []) := by
  constructor
  · intro h
    simp [select_max, h]
  · intro v hv
    have hsel : (select_max vms).2
        = vms.filterMap (fun m =>
            if m.update_number = some v then some m.mirror else none) := by
      simp [select_max, hv]
    constructor
    · rw [hsel, filterMap_select_eq]
    · have hvmem : v ∈ vms.filterMap VersionedMirror.update_number :=
        List.max?_mem (fun a b => max_choice a b) hv
      rw [List.mem_filterMap] at hvmem
      obtain ⟨m, hm, hupd⟩ := hvmem
      rw [hsel, filterMap_select_eq]
      intro hnil
      have hmem : m ∈ vms.filter (fun m => m.update_number == some v) :=
        List.mem_filter.mpr ⟨hm, by simp [hupd]⟩
      have : m.mirror ∈ (vms.filter
          (fun m => m.update_number == some v)).map VersionedMirror.mirror :=
        List.mem_map_of_mem VersionedMirror.mirror hmem
      rw [hnil] at this
      cases this

/-- Witness for C2's theorem at the spec's worked example
`[(A,5), (B,None), (C,5), (D,3)]`: exactly A and C are selected. -/
theorem selector_takes_exactly_max_version_witness :
    (select_max c2vms).2 = [demoMirror "a.example", demoMirror "c.example"] ∧
    (select_max c2vms).2 ≠ [] := by
  have h := (selector_takes_exactly_max_version c2vms).2 5 (by decide)
  exact ⟨by rw [h.1]; decide, h.2⟩


/-- C5: every mirror the parser emits has a url whose scheme parses to a
known protocol that the caller's policy allows. -/
theorem parser_output_respects_protocol_policy
    (config : Config) (target : EndeavourOSTarget) :
    ∀ (lines : List String) (cc : Option Country) (ms : List Mirror),
      parse_lines config target cc lines = Except.ok ms →
      ∀ m ∈ ms, ∃ p, Protocol.from_str m.url.scheme = some p ∧
        config.is_protocol_allowed p = true := by
  intro lines
  induction lines with
  | nil =>
    intro cc ms h
    rw [parse_lines] at h
    cases h
    intro m hm
    cases hm
  | cons l rest ih =>
    intro cc ms h
    rw [parse_lines] at h
    split at h
    · exact ih _ _ h
    · split at h
      · exact ih _ _ h
      · split at h
        · exact ih _ _ h
        · split at h
          · exact ih _ _ h
          · split at h
            · exact ih _ _ h
            · split at h
              · split at h
                · cases h
                · rw [except_map_eq_ok] at h
                  obtain ⟨tl, hrec, rfl⟩ := h
                  intro m hm
                  rcases List.mem_cons.mp hm with rfl | hm
                  · rename_i x2 url hurl x1 protocol hproto hallow x0 ut hjoin
                    exact ⟨protocol, hproto, hallow⟩
                  · exact ih _ _ hrec m hm
              · exact ih _ _ h


/-- Witness for C5's theorem: parsing a single well-formed https line
under `demoConfig` yields a mirror whose scheme is a known, allowed
protocol. -/
theorem parser_output_respects_protocol_policy_witness :
    ∃ p, Protocol.from_str (demoMirror "a.example").url.scheme = some p ∧
      demoConfig.is_protocol_allowed p = true :=
  parser_output_respects_protocol_policy demoConfig demoTarget
    ["Server = https://a.example/$repo/$arch"] none [demoMirror "a.example"]
    (by decide) (demoMirror "a.example") (by decide)

/-- C7: a non-header line whose stripped remainder is not an absolute
URL, or whose scheme is unknown or rejected by the policy, is skipped
silently — parsing continues on the remaining lines with the same state
and no error. -/
theorem malformed_line_skipped
    (config : Config) (target : EndeavourOSTarget) (cc : Option Country)
    (line : String) (rest : List String)
    (hheader : rsStartsWith line "## " = false)
    (hmal : Url.from_str (strip_line line) = none
      ∨ (∃ u, Url.from_str (strip_line line) = some u
          ∧ Protocol.from_str u.scheme = none)
      ∨ (∃ u p, Url.from_str (strip_line line) = some u
          ∧ Protocol.from_str u.scheme = some p
          ∧ config.is_protocol_allowed p = false)) :
    parse_lines config target cc (line :: rest) = parse_lines config target cc rest := by
  by_cases hcom : rsStartsWith line "#" = true
  · simp [parse_lines, hheader, hcom]
  · by_cases hempty : strip_line line = ""
    · simp [parse_lines, hheader, hcom, hempty]
    · rcases hmal with hnone | ⟨u, hu, hproto⟩ | ⟨u, p, hu, hproto, hpol⟩
      · simp [parse_lines, hheader, hcom, hempty, hnone]
      · simp [parse_lines, hheader, hcom, hempty, hu, hproto]
      · simp [parse_lines, hheader, hcom, hempty, hu, hproto, hpol]

/-- Witness for C7's theorem: a line whose stripped remainder is not an
absolute URL is skipped and parsing continues. -/
theorem malformed_line_skipped_witness :
    parse_lines demoConfig demoTarget none ["Server = notaurl$repo/$arch"]
      = parse_lines demoConfig demoTarget none [] :=
  malformed_line_skipped demoConfig demoTarget none "Server = notaurl$repo/$arch" []
    (by decide) (Or.inl (by decide))


/-- Over a run of header-free lines the current country never changes, so
every mirror emitted there is tagged with the country in force. -/
theorem parse_lines_country_const (config : Config) (target : EndeavourOSTarget) :
    ∀ (lines : List String) (cc : Option Country) (ms : List Mirror),
      (∀ l ∈ lines, rsStartsWith l "## " = false) →
      parse_lines config target cc lines = Except.ok ms →
      ∀ m ∈ ms, m.country = cc := by
  intro lines
  induction lines with
  | nil =>
    intro cc ms _ h
    cases h
    intro m hm
    cases hm
  | cons l rest ih =>
    intro cc ms hhf h
    have hl : rsStartsWith l "## " = false := hhf l (List.mem_cons_self l rest)
    have hrest : ∀ x ∈ rest, rsStartsWith x "## " = false :=
      fun x hx => hhf x (List.mem_cons_of_mem l hx)
    rw [parse_lines] at h
    rw [hl] at h
    simp only [Bool.false_eq_true, if_false] at h
    split at h
    · exact ih _ _ hrest h
    · split at h
      · exact ih _ _ hrest h
      · split at h
        · exact ih _ _ hrest h
        · split at h
          · exact ih _ _ hrest h
          · split at h
            · split at h
              · cases h
              · rw [except_map_eq_ok] at h
                obtain ⟨tl, hrec, rfl⟩ := h
                intro m hm
                rcases List.mem_cons.mp hm with rfl | hm
                · rfl
                · exact ih _ _ hrest hrec m hm
            · exact ih _ _ hrest h

/-- C8 (amended): a `"## "` header line emits no mirror and sets the
current country to the parse of the line with every occurrence of
`"## "` removed (for ordinary headers this is the remainder after the
marker), unparseable tags resetting it to unknown; a non-header line
either skips, or emits one mirror tagged with the country currently in
force, or aborts on the join panic; and over header-free lines every
emitted mirror carries the incoming current country — in particular
mirrors before any header are tagged unknown. -/
theorem country_header_sets_current_country
    (config : Config) (target : EndeavourOSTarget) :
    (∀ (cc : Option Country) (line : String) (rest : List String),
      rsStartsWith line "## " = true →
      parse_lines config target cc (line :: rest)
        = parse_lines config target (Country.from_str (strReplace line "## " "")) rest) ∧
    (∀ (cc : Option Country) (line : String) (rest : List String),
      rsStartsWith line "## " = false →
      parse_lines config target cc (line :: rest) = parse_lines config target cc rest
      ∨ (∃ u ut, parse_lines config target cc (line :: rest)
          = Except.map (List.cons { country := cc, url := u, url_to_test := ut })
              (parse_lines config target cc rest))
      ∨ parse_lines config target cc (line :: rest)
          = Except.error "failed to join path_to_test") ∧
    (∀ (cc : Option Country) (lines : List String) (ms : List Mirror),
      (∀ l ∈ lines, rsStartsWith l "## " = false) →
      parse_lines config target cc lines = Except.ok ms →
      ∀ m ∈ ms, m.country = cc) := by
  refine ⟨?_, ?_, fun cc lines => parse_lines_country_const config target lines cc⟩
  · intro cc line rest h
    simp [parse_lines, h]
  · intro cc line rest h
    rw [parse_lines]
    rw [h]
    simp only [Bool.false_eq_true, if_false]
    split
    · exact Or.inl rfl
    · split
      · exact Or.inl rfl
      · split
        · exact Or.inl rfl
        · split
          · exact Or.inl rfl
          · split
            · split
              · exact Or.inr (Or.inr rfl)
              · exact Or.inr (Or.inl ⟨_, _, rfl⟩)
            · exact Or.inl rfl

/-- Counterexample to C8 as stated: for the header line `"## ## France"`
the remainder after the `"## "` marker is `"## France"`, which parses to
no country — yet the parser, which removes every occurrence of `"## "`,
tags the following mirror with France. -/
theorem country_header_counterexample :
    parse_lines demoConfig demoTarget none
        ["## ## France", "Server = https://a.example/$repo/$arch"]
      = Except.ok
          [{ country := some Country.france
             url := { scheme := "https", rest := "a.example/" }
             url_to_test := { scheme := "https", rest := "a.example/endeavouros/state" } }] ∧
    Country.from_str "## France" = none :=
  ⟨by decide, by decide⟩

/-- Witness for C8's theorem: a plain `"## Germany"` header sets the
current country to Germany and emits nothing. -/
theorem country_header_sets_current_country_witness :
    parse_lines demoConfig demoTarget none ["## Germany"]
      = parse_lines demoConfig demoTarget (some Country.germany) [] := by
  have h := (country_header_sets_current_country demoConfig demoTarget).1
    none "## Germany" [] (by decide)
  rw [h]
  rw [show Country.from_str (strReplace "## Germany" "## " "")
    = some Country.germany from by decide]


/-- C10: feeding `format_mirror`'s output line back through the parser's
line handling emits one mirror whose base url is the original one,
provided the url's serialization contains neither stripped literal, the
serialization parses back to the url (the url crate's round-trip
invariant, stated as a hypothesis because the Lean structure admits
non-canonical values), and the scheme is known and allowed. -/
theorem format_parse_round_trip
    (config : Config) (target : EndeavourOSTarget) (cc : Option Country)
    (rest : List String) (mirror : Mirror) (p : Protocol)
    (hs : strContainsSub (Url.render mirror.url) "Server = " = false)
    (ha : strContainsSub (Url.render mirror.url) "$repo/$arch" = false)
    (hwf : Url.from_str (Url.render mirror.url) = some mirror.url)
    (hp : Protocol.from_str mirror.url.scheme = some p)
    (hpol : config.is_protocol_allowed p = true) :
    ∃ ut, parse_lines config target cc (format_mirror target mirror :: rest)
      = Except.map (List.cons { country := cc, url := mirror.url, url_to_test := ut })
          (parse_lines config target cc rest) := by
  have h1 := (strContainsSub_eq_false_iff _ _).mp hs
  have h2 := (strContainsSub_eq_false_iff _ _).mp ha
  have hstrip : strip_line (format_mirror target mirror) = Url.render mirror.url := by
    unfold format_mirror
    exact strip_line_format _ h1 h2
  have hne : Url.render mirror.url ≠ "" := by
    intro h0
    rw [h0, from_str_empty] at hwf
    cases hwf
  have hh : rsStartsWith (format_mirror target mirror) "## " = false := by
    unfold format_mirror
    rw [String.append_assoc]
    exact format_not_country_header _
  have hcm : rsStartsWith (format_mirror target mirror) "#" = false := by
    unfold format_mirror
    rw [String.append_assoc]
    exact format_not_comment _
  rw [parse_lines]
  rw [hh, hcm]
  simp only [Bool.false_eq_true, if_false]
  rw [hstrip]
  rw [if_neg hne]
  rw [hwf]
  dsimp only
  rw [hp]
  dsimp only
  simp only [hpol, if_true]
  rw [show Url.join mirror.url target.path_to_test
    = some { scheme := mirror.url.scheme
             rest := (keepThroughLastSlash mirror.url.rest.toList).asString
               ++ target.path_to_test } from rfl]
  dsimp only
  exact ⟨_, rfl⟩

/-- Witness for C10's theorem: round-tripping the demo https mirror
through `format_mirror` and the parser recovers its base url. -/
theorem format_parse_round_trip_witness :
    ∃ ut, parse_lines demoConfig demoTarget none
        [format_mirror demoTarget (demoMirror "a.example")]
      = Except.map
          (List.cons { country := none, url := (demoMirror "a.example").url
                       url_to_test := ut })
          (parse_lines demoConfig demoTarget none []) :=
  format_parse_round_trip demoConfig demoTarget none [] (demoMirror "a.example")
    Protocol.https (by decide) (by decide) (by decide) (by decide) (by decide)


/-- C3 (amended): a network or decode failure on a remote mirror-list URL
makes `fetch_mirrors` return an `AppError`; a missing local mirror-list
file instead aborts with the `expect` panic, not an `AppError`; and the
only fatal outcomes of the whole operation are the fetch failures and the
two `expect`/`unwrap` panics (file read and probe-path join). -/
theorem fetch_failure_paths (config : Config) (target : EndeavourOSTarget) (env : Env) :
    ((∃ u, Url.from_str target.mirror_list_file = some u) →
      (env.list_http = ListFetchOutcome.sendErr ∨ env.list_http = ListFetchOutcome.decodeErr) →
      ∃ e, fetch_mirrors config target env = RunResult.err e) ∧
    (Url.from_str target.mirror_list_file = none →
      env.file_read = none →
      fetch_mirrors config target env
        = RunResult.panic "failed to read from mirror-list-file") ∧
    (∀ e, fetch_mirrors config target env = RunResult.err e →
      (∃ u, Url.from_str target.mirror_list_file = some u) ∧
      (env.list_http = ListFetchOutcome.sendErr ∨ env.list_http = ListFetchOutcome.decodeErr)) ∧
    (∀ m, fetch_mirrors config target env = RunResult.panic m →
      m = "failed to read from mirror-list-file" ∨ m = "failed to join path_to_test") := by
  refine ⟨?_, ?_, ?_, ?_⟩
  · rintro ⟨u, hu⟩ hfail
    rcases hfail with hs | hs <;>
      · rw [fetch_mirrors, hu, hs]
        exact ⟨_, rfl⟩
  · intro hu hf
    rw [fetch_mirrors, hu, hf]
  · intro e h
    rw [fetch_mirrors] at h
    rcases hu : Url.from_str target.mirror_list_file with _ | u
    · rcases hf : env.file_read with _ | s
      · simp only [hu, hf] at h
        cases h
      · simp only [hu, hf] at h
        rcases hp : parse_lines config target none (rustLines s) with msg | ms
        · simp only [hp] at h
          cases h
        · simp [hp] at h
    · rcases hs : env.list_http with _ | _ | s
      · exact ⟨⟨u, rfl⟩, Or.inl rfl⟩
      · exact ⟨⟨u, rfl⟩, Or.inr rfl⟩
      · simp only [hu, hs] at h
        rcases hp : parse_lines config target none (rustLines s) with msg | ms
        · simp only [hp] at h
          cases h
        · simp [hp] at h
  · intro m h
    rw [fetch_mirrors] at h
    rcases hu : Url.from_str target.mirror_list_file with _ | u
    · rcases hf : env.file_read with _ | s
      · simp only [hu, hf] at h
        injection h with h2
        exact Or.inl h2.symm
      · simp only [hu, hf] at h
        rcases hp : parse_lines config target none (rustLines s) with msg | ms
        · simp only [hp] at h
          injection h with h2
          exact Or.inr (h2 ▸ parse_lines_error_eq config target _ _ _ hp)
        · simp [hp] at h
    · rcases hs : env.list_http with _ | _ | s
      · simp [hu, hs] at h
      · simp [hu, hs] at h
      · simp only [hu, hs] at h
        rcases hp : parse_lines config target none (rustLines s) with msg | ms
        · simp only [hp] at h
          injection h with h2
          exact Or.inr (h2 ▸ parse_lines_error_eq config target _ _ _ hp)
        · simp [hp] at h

/-- Witness for C3's theorem: a failing remote fetch surfaces as an
`AppError` return. -/
theorem fetch_failure_paths_witness :
    ∃ e, fetch_mirrors demoConfig demoTarget c3remoteEnv = RunResult.err e :=
  (fetch_failure_paths demoConfig demoTarget c3remoteEnv).1
    ⟨{ scheme := "https", rest := "raw.example/mirrorlist" }, by decide⟩ (Or.inl rfl)

/-- Counterexample to C3 as stated: with a local mirror-list path and the
file missing, `fetch_mirrors` aborts with the `expect` panic instead of
returning an `AppError`. -/
theorem fetch_missing_file_counterexample :
    fetch_mirrors demoConfig c3target c3env
      = RunResult.panic "failed to read from mirror-list-file" := by
  decide


/-- Splitting the in-flight count around one task. -/
theorem inflightCount_append (pre post : List TaskPhase) (t : TaskPhase) :
    inflightCount (pre ++ t :: post)
      = inflightCount pre + inflightCount [t] + inflightCount post := by
  unfold inflightCount
  simp [List.countP_append, List.countP_cons]
  omega

/-- A waiting task holds no permit. -/
theorem inflightCount_waiting : inflightCount [TaskPhase.waiting] = 0 := rfl

/-- An in-flight task holds one permit. -/
theorem inflightCount_inflight : inflightCount [TaskPhase.inflight] = 1 := rfl

/-- A finished task holds no permit. -/
theorem inflightCount_done : inflightCount [TaskPhase.done] = 0 := rfl

/-- C4: under the semaphore discipline — a task acquires a permit before
its request goes out and releases it when the probe completes — at most
`N` probe requests are in flight in any state reachable from an
all-waiting task pool, for any pool size and any `N ≥ 1`. -/
theorem probe_concurrency_bounded
    (N : Nat) (init s : List TaskPhase)
    (hN : 1 ≤ N)
    (hinit : ∀ p ∈ init, p = TaskPhase.waiting)
    (hreach : ProbeReach N init s) :
    inflightCount s ≤ N := by
  induction hreach with
  | refl =>
    have h0 : inflightCount init = 0 := by
      unfold inflightCount
      rw [List.countP_eq_zero]
      intro a ha
      rw [hinit a ha]
      decide
    omega
  | step hr hstep ih =>
    cases hstep with
    | start pre post hlt =>
      rw [inflightCount_append] at hlt ⊢
      rw [inflightCount_waiting] at hlt
      rw [inflightCount_inflight]
      omega
    | finish pre post =>
      rw [inflightCount_append] at ih ⊢
      rw [inflightCount_inflight] at ih
      rw [inflightCount_done]
      omega

/-- Witness for C4's theorem: with limit 1 and two tasks, the state with
one probe in flight and one finished is reachable and respects the
bound. -/
theorem probe_concurrency_bounded_witness :
    inflightCount [TaskPhase.inflight, TaskPhase.done] ≤ 1 :=
  probe_concurrency_bounded 1 [TaskPhase.waiting, TaskPhase.waiting]
    [TaskPhase.inflight, TaskPhase.done] (by decide) (by decide)
    (ProbeReach.step
      (ProbeReach.step
        (ProbeReach.step ProbeReach.refl
          (ProbeStep.start [TaskPhase.waiting] [] (by decide)))
        (ProbeStep.finish [TaskPhase.waiting] []))
      (ProbeStep.start [] [TaskPhase.done] (by decide)))

end RateMirrors
